import Mathlib

/-!
Verification of `localized_fields/fields/field.py` from django-localized-fields.

The field stores one text value per configured language in a single hstore
column.  We embed the module shallowly:

* `LANGUAGES` / `LANGUAGE_CODE` come from `src/settings.py`.
* `Py` is a universe of the Python values the field methods handle
  (None, strings, hstore dictionaries, lists, `LocalizedValue` instances).
* `LocalizedValue` (defined in the repository's `value.py`, which is not part
  of the sources given) is modelled from the spec: a mapping from each
  configured language code to a text value or null, one entry per configured
  language.
* The methods `from_db_value`, `to_python`, `get_prep_value`, `clean` and
  `validate` of `LocalizedField` are translated line by line from
  `field.py`; raising is modelled with `Except`.
-/

/-- Configured language list, from `src/settings.py` (`LANGUAGES`): the
language codes, in order. -/
def LANGUAGES : List String := ["en", "ro", "nl"]

/-- Configured primary language, from `src/settings.py` (`LANGUAGE_CODE`). -/
def LANGUAGE_CODE : String := "en"

/-- `LOCALIZED_FIELDS_EXPERIMENTAL` is not set in `src/settings.py`;
`getattr(settings, 'LOCALIZED_FIELDS_EXPERIMENTAL', False)` yields `False`. -/
def LOCALIZED_FIELDS_EXPERIMENTAL : Bool := false

/-- An hstore dictionary: string keys mapped to text or SQL null.  Python
`dict` keys are unique, so lookup by first occurrence is faithful. -/
abbrev Hstore := List (String × Option String)

/-- Modelled from the spec (`value.py` is not among the given sources):
"LocalizedValue: mapping from language code (string) to text value (string
or null).  Keys correspond to a globally configured list of supported
languages", with one attribute per configured language (`en`, `ro`, `nl`
per `src/settings.py`). -/
structure LocalizedValue where
  en : Option String
  ro : Option String
  nl : Option String
deriving DecidableEq, Repr

namespace LocalizedValue

/-- Modelled from the spec: attribute access (`getattr` / `.get`) on the
mapping; languages outside the configured list carry no value. -/
def get (v : LocalizedValue) (lang : String) : Option String :=
  if lang = "en" then v.en
  else if lang = "ro" then v.ro
  else if lang = "nl" then v.nl
  else none

/-- Modelled from the spec: the empty value container (`attr_class()`),
every configured language mapped to null. -/
def empty : LocalizedValue := ⟨none, none, none⟩

/-- Modelled from the spec: constructing the container from a dictionary
(`attr_class(dict)`) takes, for each configured language, the value the
dictionary stores under that language code (null when absent). -/
def ofDict (d : Hstore) : LocalizedValue :=
  ⟨(d.lookup "en").join, (d.lookup "ro").join, (d.lookup "nl").join⟩

/-- Modelled from the spec: constructing the container from a plain string
assigns the string to the current language, which is the configured primary
language when no translation is active. -/
def ofStr (s : String) : LocalizedValue :=
  if LANGUAGE_CODE = "en" then ⟨some s, none, none⟩
  else if LANGUAGE_CODE = "ro" then ⟨none, some s, none⟩
  else ⟨none, none, some s⟩

/-- The instance dictionary `__dict__`: one entry per configured language,
in configuration order. -/
def dict (v : LocalizedValue) : Hstore :=
  LANGUAGES.map (fun lang => (lang, v.get lang))

/-- Equality as a mapping from language code to text: agreement on every
configured language. -/
def equiv (a b : LocalizedValue) : Prop :=
  ∀ lang ∈ LANGUAGES, a.get lang = b.get lang

instance : DecidablePred (fun p : LocalizedValue × LocalizedValue => equiv p.1 p.2) :=
  fun _ => by unfold equiv; infer_instance

end LocalizedValue

/-- The Python values flowing through the field methods. -/
inductive Py where
  | none
  | str (s : String)
  | dict (d : Hstore)
  | list (xs : List Py)
  | lv (v : LocalizedValue)

namespace Py

/-- Python truthiness of the values above.  `None` is falsy; strings,
dictionaries and lists are falsy exactly when empty.  A `LocalizedValue`
(modelled from the spec) defines no emptiness of its own and is always
truthy, like any plain Python object. -/
def truthy : Py → Bool
  | Py.none => false
  | Py.str s => !s.isEmpty
  | Py.dict d => !d.isEmpty
  | Py.list xs => !xs.isEmpty
  | Py.lv _ => true

/-- `isinstance(value, LocalizedValue)`. -/
def isLV : Py → Bool
  | Py.lv _ => true
  | _ => false

/-- `isinstance(value, dict)`. -/
def isDict : Py → Bool
  | Py.dict _ => true
  | _ => false

/-- `isinstance(value, list)`. -/
def isList : Py → Bool
  | Py.list _ => true
  | _ => false

end Py

/-- Modelled from the spec: the `attr_class(x)` constructor on an arbitrary
deserialized value: a dictionary is interpreted per configured language, a
string goes to the current language, an existing container is copied, and
anything else yields the empty container. -/
def LocalizedValue.ofPy : Py → LocalizedValue
  | Py.dict d => LocalizedValue.ofDict d
  | Py.str s => LocalizedValue.ofStr s
  | Py.lv v => v
  | _ => LocalizedValue.empty

/-- Exceptions the field methods can raise. -/
inductive PyError where
  | integrityError (msg : String)
  | attributeError
deriving DecidableEq, Repr

/-- The `LocalizedField` state the translated methods read: the field name
(used in error messages) and whether the column allows SQL null. -/
structure LocalizedField where
  name : String
  null : Bool
deriving DecidableEq, Repr

/-- Embeds `clean`'s Python return value (`None` or the container) back into
the value universe. -/
def optLVToPy : Option LocalizedValue → Py
  | Option.none => Py.none
  | some v => Py.lv v

namespace LocalizedField

/-- `from_db_value` (`field.py` lines 48–91, a classmethod): a falsy
database value becomes a fresh empty container (the experimental setting is
off); a list from an aggregation has each dictionary element wrapped and
every other element kept; a flat non-dictionary value is returned as is; a
dictionary is wrapped in the container. -/
def from_db_value (value : Py) : Py :=
  if value.truthy = false then
    if LOCALIZED_FIELDS_EXPERIMENTAL then Py.none
    else Py.lv LocalizedValue.empty
  else
    match value with
    | Py.list xs =>
        Py.list (xs.map (fun inner =>
          match inner with
          | Py.dict d => Py.lv (LocalizedValue.ofDict d)
          | _ => inner))
    | Py.dict d => Py.lv (LocalizedValue.ofDict d)
    | v => v

/-- The base class deserialization used by `to_python`
(`super().to_python`), modelled from the spec's "HStore-backed field"
substrate: a string is deserialized as JSON (the decoder is abstracted as
the parameter `jsonLoads`, whose failure is the JSON decode error), every
other value passes through. -/
def superToPython (jsonLoads : String → Except Unit Py) : Py → Except Unit Py
  | Py.str s => jsonLoads s
  | v => Except.ok v

/-- The `deserialized_value` local of `to_python` (`field.py` lines
109–112): the base class result, falling back to the raw value when JSON
decoding fails. -/
def deserializedValue (jsonLoads : String → Except Unit Py) (value : Py) : Py :=
  match superToPython jsonLoads value with
  | Except.ok v => v
  | Except.error _ => value

/-- `to_python` (`field.py` lines 93–117): deserialize (catching JSON
decode errors), return the empty container on a falsy result, otherwise
wrap the result in the container. -/
def to_python (_f : LocalizedField) (jsonLoads : String → Except Unit Py)
    (value : Py) : LocalizedValue :=
  if (deserializedValue jsonLoads value).truthy = false then LocalizedValue.empty
  else LocalizedValue.ofPy (deserializedValue jsonLoads value)

/-- `clean` (`field.py` lines 151–185): a falsy or non-container value
cleans to `None`; a container all of whose configured languages are null
cleans to `None` on a nullable field; otherwise the value is returned
unchanged. -/
def clean (f : LocalizedField) (value : Py) : Option LocalizedValue :=
  if value.truthy = false then Option.none
  else
    match value with
    | Py.lv v =>
        let is_all_null := LANGUAGES.all (fun lang => (v.get lang).isNone)
        if is_all_null && f.null then Option.none else some v
    | _ => Option.none

/-- The not-null violation message raised by `validate`
(`field.py` lines 207–212). -/
def notNullMessage (f : LocalizedField) : String :=
  "null value in column \"" ++ f.name ++ "." ++ LANGUAGE_CODE ++
    "\" violates not-null constraint"

/-- `validate` (`field.py` lines 187–212): a nullable field accepts
everything; otherwise the primary-language attribute must not be `None`
(`getattr(None, ...)` on a cleaned-away value would raise
`AttributeError`). -/
def validate (f : LocalizedField) (value : Option LocalizedValue) :
    Except PyError Unit :=
  if f.null then Except.ok ()
  else
    match value with
    | Option.none => Except.error PyError.attributeError
    | some v =>
        match v.get LANGUAGE_CODE with
        | Option.none => Except.error (PyError.integrityError (notNullMessage f))
        | some _ => Except.ok ()

/-- The base class `get_prep_value` (`super().get_prep_value`), modelled
from the spec's "HStore-backed field" substrate: the mapping (or null) goes
to the database as is. -/
def superGetPrepValue (value : Option Hstore) : Option Hstore := value

/-- `get_prep_value` (`field.py` lines 119–149): a truthy non-container
value is replaced by `None`; a truthy value is cleaned and validated and
its `__dict__` handed to the base class; a falsy value ends up as `None`
(`cleaned_value.__dict__ if cleaned_value else None`). -/
def get_prep_value (f : LocalizedField) (value : Py) :
    Except PyError (Option Hstore) :=
  let value := if value.isLV = false ∧ value.truthy = true then Py.none else value
  if value.truthy then
    let cleaned := f.clean value
    match f.validate cleaned with
    | Except.error e => Except.error e
    | Except.ok _ =>
        Except.ok (superGetPrepValue (cleaned.map LocalizedValue.dict))
  else
    Except.ok (superGetPrepValue Option.none)

end LocalizedField

/-- A concrete non-nullable field, for witnesses. -/
def fldTitle : LocalizedField := { name := "title", null := false }

/-- A concrete nullable field, for witnesses. -/
def fldTitleNullable : LocalizedField := { name := "title", null := true }

/-- A JSON decoder that fails on every string, exercising the decode-error
path of `to_python`. -/
def jsonLoadsAlwaysFails : String → Except Unit Py := fun _ => Except.error ()

/-- Rebuilding the container from its own `__dict__` is the identity. -/
theorem LocalizedValue.ofDict_dict (v : LocalizedValue) :
    LocalizedValue.ofDict v.dict = v := by
  cases v; rfl

/-- `clean` on a container, unfolded: `None` exactly when every configured
language is null and the field is nullable. -/
theorem LocalizedField.clean_lv (f : LocalizedField) (v : LocalizedValue) :
    f.clean (Py.lv v) =
      (if (LANGUAGES.all fun lang => (v.get lang).isNone) && f.null
       then Option.none else some v) := rfl

/-- `clean` on anything that is not a container returns `None`. -/
theorem LocalizedField.clean_not_lv (f : LocalizedField) (x : Py)
    (h : x.isLV = false) : f.clean x = Option.none := by
  unfold LocalizedField.clean
  cases x <;> simp_all [Py.isLV]

/-- `get_prep_value` on a container, unfolded to its clean-validate-store
pipeline. -/
theorem LocalizedField.get_prep_value_lv (f : LocalizedField)
    (v : LocalizedValue) :
    f.get_prep_value (Py.lv v) =
      (match f.validate (f.clean (Py.lv v)) with
       | Except.error e => Except.error e
       | Except.ok _ =>
           Except.ok ((f.clean (Py.lv v)).map LocalizedValue.dict)) := rfl

/-- C1: `validate` raises `IntegrityError` if and only if the field is not
nullable and the value's attribute for the configured primary language is
`None`; in particular a nullable field's `validate` never raises.  Stated
as a complete characterization of `validate` on container values. -/
theorem validate_integrity_error_iff (f : LocalizedField) (v : LocalizedValue) :
    f.validate (some v) =
      (if f.null = false ∧ v.get LANGUAGE_CODE = Option.none
       then Except.error (PyError.integrityError f.notNullMessage)
       else Except.ok ()) := by
  unfold LocalizedField.validate
  cases hn : f.null <;> cases hv : v.get LANGUAGE_CODE <;> simp [hv]

/-- C5: every falsy database value is turned into a freshly created empty
container by `from_db_value` (the experimental setting is off in
`src/settings.py`). -/
theorem from_db_value_falsy_gives_empty (value : Py)
    (h : value.truthy = false) :
    LocalizedField.from_db_value value = Py.lv LocalizedValue.empty := by
  unfold LocalizedField.from_db_value
  simp [h, LOCALIZED_FIELDS_EXPERIMENTAL]

/-- Witness for C5 at the database value `None`. -/
theorem from_db_value_falsy_gives_empty_witness :
    LocalizedField.from_db_value Py.none = Py.lv LocalizedValue.empty :=
  from_db_value_falsy_gives_empty Py.none rfl

/-- C7: `validate` depends only on the primary-language attribute: two
containers agreeing on the configured primary language are validated
identically, whatever their other languages hold. -/
theorem validate_noninterference (f : LocalizedField)
    (v1 v2 : LocalizedValue)
    (h : v1.get LANGUAGE_CODE = v2.get LANGUAGE_CODE) :
    f.validate (some v1) = f.validate (some v2) := by
  unfold LocalizedField.validate
  cases hn : f.null <;> simp [h]

/-- Witness for C7: two containers sharing the primary value but with
different secondary languages. -/
theorem validate_noninterference_witness :
    fldTitle.validate (some ⟨some "x", some "a", Option.none⟩) =
      fldTitle.validate (some ⟨some "x", Option.none, some "b"⟩) :=
  validate_noninterference fldTitle ⟨some "x", some "a", Option.none⟩
    ⟨some "x", Option.none, some "b"⟩ rfl

/-- C9: `from_db_value` does not always return the container: a truthy
value that is neither a dictionary nor a list comes back unchanged, and a
list comes back as the elementwise map (same length, same order) wrapping
exactly the dictionary elements and keeping every other element, `None`
included. -/
theorem from_db_value_flat_and_aggregate (value : Py)
    (h : value.truthy = true) :
    (value.isDict = false → value.isList = false →
      LocalizedField.from_db_value value = value)
    ∧ (∀ xs, value = Py.list xs →
      LocalizedField.from_db_value value =
        Py.list (xs.map (fun inner =>
          match inner with
          | Py.dict d => Py.lv (LocalizedValue.ofDict d)
          | _ => inner))) := by
  constructor
  · intro hd hl
    unfold LocalizedField.from_db_value
    cases value <;> simp_all [Py.isDict, Py.isList]
  · rintro xs rfl
    unfold LocalizedField.from_db_value
    simp [h]

/-- Witness for C9: a flat string survives unchanged; a mixed aggregation
list has its dictionary wrapped and its `None` and string kept. -/
theorem from_db_value_flat_and_aggregate_witness :
    LocalizedField.from_db_value (Py.str "x") = Py.str "x" ∧
    LocalizedField.from_db_value
        (Py.list [Py.dict [("en", some "v")], Py.none, Py.str "a"]) =
      Py.list [Py.lv (LocalizedValue.ofDict [("en", some "v")]),
        Py.none, Py.str "a"] := by
  constructor
  · exact (from_db_value_flat_and_aggregate (Py.str "x") rfl).1 rfl rfl
  · exact ((from_db_value_flat_and_aggregate
      (Py.list [Py.dict [("en", some "v")], Py.none, Py.str "a"]) rfl).2
      [Py.dict [("en", some "v")], Py.none, Py.str "a"] rfl).trans rfl

/-- C10: `clean` is idempotent — cleaning its own result changes nothing —
and never rewrites entries: it returns either `None` or exactly the
container it was given. -/
theorem clean_idempotent_and_identity (f : LocalizedField) (x : Py) :
    f.clean (optLVToPy (f.clean x)) = f.clean x
    ∧ (f.clean x = Option.none ∨ ∃ v, x = Py.lv v ∧ f.clean x = some v) := by
  cases x with
  | lv v =>
      have hcl := LocalizedField.clean_lv f v
      cases hc : (LANGUAGES.all fun lang => (v.get lang).isNone) && f.null with
      | true =>
          rw [hc] at hcl
          simp only [if_pos rfl] at hcl
          refine ⟨?_, Or.inl hcl⟩
          rw [hcl]
          exact f.clean_not_lv Py.none rfl
      | false =>
          rw [hc] at hcl
          simp at hcl
          refine ⟨?_, Or.inr ⟨v, rfl, hcl⟩⟩
          rw [hcl]
          exact hcl
  | none => exact ⟨rfl, Or.inl rfl⟩
  | str s =>
      have h0 : f.clean (Py.str s) = Option.none :=
        f.clean_not_lv (Py.str s) rfl
      rw [h0]
      exact ⟨f.clean_not_lv Py.none rfl, Or.inl rfl⟩
  | dict d =>
      have h0 : f.clean (Py.dict d) = Option.none :=
        f.clean_not_lv (Py.dict d) rfl
      rw [h0]
      exact ⟨f.clean_not_lv Py.none rfl, Or.inl rfl⟩
  | list xs =>
      have h0 : f.clean (Py.list xs) = Option.none :=
        f.clean_not_lv (Py.list xs) rfl
      rw [h0]
      exact ⟨f.clean_not_lv Py.none rfl, Or.inl rfl⟩

/-- C2: the code contradicts `get_prep_value`'s own docstring ("If an
illegal value (non-LocalizedValue instance) is specified, we'll treat it as
an empty LocalizedValue instance, on which the validation will fail").  On
a non-nullable field, the truthy non-container input `"hello"` is replaced
by `None`, validation is skipped, and `None` is silently handed to the
database — no `IntegrityError`, no stored primary-language entry. -/
theorem get_prep_value_silently_nulls_flat_input :
    fldTitle.null = false ∧
    fldTitle.get_prep_value (Py.str "hello") = Except.ok Option.none :=
  ⟨rfl, rfl⟩

/-- C4: `to_python` is total over its accepted inputs: when the base-class
deserialization raises a JSON decode error, `to_python` swallows the error
and wraps the raw value (so it still returns a container), and whenever the
deserialized value is falsy the result is the empty container. -/
theorem to_python_total_and_empty_on_falsy (f : LocalizedField)
    (jsonLoads : String → Except Unit Py) (value : Py) :
    (LocalizedField.superToPython jsonLoads value = Except.error () →
      f.to_python jsonLoads value =
        (if value.truthy = false then LocalizedValue.empty
         else LocalizedValue.ofPy value))
    ∧ ((LocalizedField.deserializedValue jsonLoads value).truthy = false →
      f.to_python jsonLoads value = LocalizedValue.empty) := by
  constructor
  · intro he
    unfold LocalizedField.to_python LocalizedField.deserializedValue
    rw [he]
  · intro hf
    unfold LocalizedField.to_python
    rw [hf]
    rfl

/-- Witness for C4: with a decoder that always fails, a non-empty non-JSON
string still becomes a container holding it, and the empty string becomes
the empty container. -/
theorem to_python_total_and_empty_on_falsy_witness :
    fldTitleNullable.to_python jsonLoadsAlwaysFails (Py.str "oops") =
      LocalizedValue.ofStr "oops" ∧
    fldTitleNullable.to_python jsonLoadsAlwaysFails (Py.str "") =
      LocalizedValue.empty := by
  constructor
  · exact (to_python_total_and_empty_on_falsy fldTitleNullable
      jsonLoadsAlwaysFails (Py.str "oops")).1 rfl
  · exact (to_python_total_and_empty_on_falsy fldTitleNullable
      jsonLoadsAlwaysFails (Py.str "")).2 rfl

/-- C6: whenever `get_prep_value` serializes a container into a dictionary
(rather than mapping it to null), that dictionary carries a key for every
configured language. -/
theorem get_prep_value_has_all_languages (f : LocalizedField)
    (v : LocalizedValue) (d : Hstore)
    (h : f.get_prep_value (Py.lv v) = Except.ok (some d)) :
    ∀ lang ∈ LANGUAGES, (d.lookup lang).isSome = true := by
  rw [LocalizedField.get_prep_value_lv] at h
  cases hval : f.validate (f.clean (Py.lv v)) with
  | error e => rw [hval] at h; exact absurd h (by simp)
  | ok u =>
      rw [hval] at h
      cases hc : f.clean (Py.lv v) with
      | none => rw [hc] at h; simp at h
      | some w =>
          rw [hc] at h
          simp at h
          subst h
          intro lang hmem
          fin_cases hmem <;> rfl

/-- Witness for C6 at a concrete container and its serialized dictionary:
each of the three configured languages has a key. -/
theorem get_prep_value_has_all_languages_witness :
    ((([("en", some "hello"), ("ro", Option.none), ("nl", Option.none)])
        : Hstore).lookup "en").isSome = true
    ∧ ((([("en", some "hello"), ("ro", Option.none), ("nl", Option.none)])
        : Hstore).lookup "ro").isSome = true
    ∧ ((([("en", some "hello"), ("ro", Option.none), ("nl", Option.none)])
        : Hstore).lookup "nl").isSome = true :=
  ⟨get_prep_value_has_all_languages fldTitle
      ⟨some "hello", Option.none, Option.none⟩
      [("en", some "hello"), ("ro", Option.none), ("nl", Option.none)] rfl
      "en" (by decide),
    get_prep_value_has_all_languages fldTitle
      ⟨some "hello", Option.none, Option.none⟩
      [("en", some "hello"), ("ro", Option.none), ("nl", Option.none)] rfl
      "ro" (by decide),
    get_prep_value_has_all_languages fldTitle
      ⟨some "hello", Option.none, Option.none⟩
      [("en", some "hello"), ("ro", Option.none), ("nl", Option.none)] rfl
      "nl" (by decide)⟩

/-- C8: only `None` counts as absent, the empty string counts as content:
on a nullable field `clean` returns `None` exactly when every configured
language is `None`, a container holding an empty string somewhere is
returned unchanged, and on a non-nullable field an empty-string primary
value passes `validate`. -/
theorem empty_string_counts_as_content (f : LocalizedField)
    (v : LocalizedValue) :
    (f.null = true →
      ((f.clean (Py.lv v) = Option.none ↔
          ∀ lang ∈ LANGUAGES, v.get lang = Option.none)
        ∧ ((∃ lang ∈ LANGUAGES, v.get lang = some "") →
          f.clean (Py.lv v) = some v)))
    ∧ (f.null = false → v.get LANGUAGE_CODE = some "" →
      f.validate (some v) = Except.ok ()) := by
  refine ⟨fun hnull => ?_, fun hnn hpe => ?_⟩
  · have hcl := LocalizedField.clean_lv f v
    rw [hnull] at hcl
    cases hb : LANGUAGES.all fun lang => (v.get lang).isNone with
    | true =>
        rw [hb] at hcl
        simp at hcl
        constructor
        · rw [hcl]
          simp only [true_iff]
          intro lang hmem
          exact Option.isNone_iff_eq_none.mp (List.all_eq_true.mp hb lang hmem)
        · intro hex
          obtain ⟨lang, hmem, hes⟩ := hex
          have := List.all_eq_true.mp hb lang hmem
          rw [hes] at this
          exact absurd this (by simp)
    | false =>
        rw [hb] at hcl
        simp at hcl
        constructor
        · rw [hcl]
          constructor
          · intro hcontr; exact absurd hcontr (by simp)
          · intro hforall
            have : (LANGUAGES.all fun lang => (v.get lang).isNone) = true :=
              List.all_eq_true.mpr (fun lang hmem =>
                Option.isNone_iff_eq_none.mpr (hforall lang hmem))
            rw [this] at hb
            exact absurd hb (by simp)
        · intro _; exact hcl
  · unfold LocalizedField.validate
    rw [hnn]
    simp [hpe]

/-- Witness for C8: a nullable field keeps a container whose only content
is the empty string, and a non-nullable field accepts an empty-string
primary value. -/
theorem empty_string_counts_as_content_witness :
    fldTitleNullable.clean (Py.lv ⟨some "", Option.none, Option.none⟩) =
      some ⟨some "", Option.none, Option.none⟩ ∧
    fldTitle.validate (some ⟨some "", Option.none, Option.none⟩) =
      Except.ok () := by
  constructor
  · exact ((empty_string_counts_as_content fldTitleNullable
      ⟨some "", Option.none, Option.none⟩).1 rfl).2 ⟨"en", by decide, rfl⟩
  · exact (empty_string_counts_as_content fldTitle
      ⟨some "", Option.none, Option.none⟩).2 rfl rfl

/-- C3: round trip between stored and in-memory representations: a
container with at least one non-null configured language (and a non-null
primary value when the field is non-nullable) is serialized by
`get_prep_value` into a dictionary that `to_python` turns back into a
container equal to the original as a mapping from language code to text. -/
theorem get_prep_to_python_roundtrip (f : LocalizedField)
    (jsonLoads : String → Except Unit Py) (v : LocalizedValue)
    (h1 : ∃ lang ∈ LANGUAGES, v.get lang ≠ Option.none)
    (h2 : f.null = false → v.get LANGUAGE_CODE ≠ Option.none) :
    ∃ d : Hstore, f.get_prep_value (Py.lv v) = Except.ok (some d) ∧
      LocalizedValue.equiv (f.to_python jsonLoads (Py.dict d)) v := by
  have hall : (LANGUAGES.all fun lang => (v.get lang).isNone) = false := by
    obtain ⟨lang, hmem, hne⟩ := h1
    cases hb : LANGUAGES.all fun lang => (v.get lang).isNone with
    | false => rfl
    | true =>
        exact absurd
          (Option.isNone_iff_eq_none.mp (List.all_eq_true.mp hb lang hmem)) hne
  have hclean : f.clean (Py.lv v) = some v := by
    rw [LocalizedField.clean_lv, hall]
    simp
  have hval : f.validate (some v) = Except.ok () := by
    unfold LocalizedField.validate
    cases hn : f.null with
    | true => simp
    | false =>
        cases hv : v.get LANGUAGE_CODE with
        | none => exact absurd hv (h2 hn)
        | some s => simp [hv]
  refine ⟨v.dict, ?_, ?_⟩
  · rw [LocalizedField.get_prep_value_lv, hclean, hval]
    rfl
  · have ht : f.to_python jsonLoads (Py.dict v.dict) = v := by
      cases v; rfl
    rw [ht]
    intro lang _
    rfl

/-- Witness for C3 at a concrete container on a non-nullable field. -/
theorem get_prep_to_python_roundtrip_witness :
    ∃ d : Hstore,
      fldTitle.get_prep_value (Py.lv ⟨some "hello", Option.none, some "hoi"⟩) =
        Except.ok (some d) ∧
      LocalizedValue.equiv
        (fldTitle.to_python jsonLoadsAlwaysFails (Py.dict d))
        ⟨some "hello", Option.none, some "hoi"⟩ :=
  get_prep_to_python_roundtrip fldTitle jsonLoadsAlwaysFails
    ⟨some "hello", Option.none, some "hoi"⟩
    ⟨"en", by decide, by decide⟩ (fun _ => by decide)
